import Mathlib

/-!
Verification of the smart-biodigester telemetry pipeline.

The repository consists of ESP32 firmware (`esp.ino`), a FastAPI backend
(documented in `esp/README.md`; its `main.py` is not part of the available
sources, only the code snippets and protocol tables reproduced in the
README), and a Next.js dashboard.  This file embeds the ingestion and
decoding pipeline shallowly:

* JSON field values are modelled by `JVal`: a finite number (`ℚ`), a
  non-finite float (`nan`, covering NaN and infinities), `null`, or a
  string.  Python comparisons against NaN are false, which the embedding
  reflects by giving `nan` its own constructor that fails every range
  check.
* `get_persistent_temperature` and `adjust_ph_value` are transcribed from
  the Python snippets in `esp/README.md`.
* The INIR2 frame decoder, fault decoder, ingestion validator and upload
  scheduler are modelled from the specification because the backend
  `main.py` is absent from the sources.
* `readMethanSensor` and the JSON payload built by `sendSensorData` are
  transcribed from the firmware `esp.ino`.
-/

/-- A JSON-ish field value as the backend receives it: a finite number,
a non-finite float (NaN or an infinity: in Python these are `float`s, so
`isinstance(v, (int, float))` accepts them, but every order comparison
against NaN is false and infinities fall outside any finite range),
`null`, or a string. -/
inductive JVal where
  | null : JVal
  | num : ℚ → JVal
  | nan : JVal
  | str : String → JVal
deriving DecidableEq

/-- The validity test of `get_persistent_temperature` from
`esp/README.md`: `isinstance(val, (int, float)) and 15.0 <= val <= 50.0`.
`nan` passes the `isinstance` test but fails the chained comparison;
`null` and strings fail the `isinstance` test. -/
def temp_valid : JVal → Bool
  | .num q => decide ((15 : ℚ) ≤ q) && decide (q ≤ (50 : ℚ))
  | _ => false

/-- Transcribed from `esp/README.md` (backend persistence logic):
return `val` when it is a number in `[15, 50]`, otherwise return the
last valid value. -/
def get_persistent_temperature (val last_valid : JVal) : JVal :=
  if temp_valid val then val else last_valid

/-- The temperature persistence store for one channel: the backend keeps
`last_valid` per channel and assigns it the result of
`get_persistent_temperature`, so the returned value and the new stored
value coincide.  Result: (returned value, new `last_valid`). -/
def tempStoreApply (last_valid val : JVal) : JVal × JVal :=
  let r := get_persistent_temperature val last_valid
  (r, r)

/-- Transcribed from `esp/README.md` (pH calibration): numbers get the
fixed `+9` offset, everything else is passed through unchanged.  A
non-finite float is numeric in Python and stays non-finite after `+9`. -/
def adjust_ph_value (ph_raw : JVal) : JVal :=
  match ph_raw with
  | .num q => .num (q + 9)
  | .nan => .nan
  | v => v

section Firmware

/-- Arduino `isPrintable` for the ASCII bytes arriving on the UART:
printable characters are `0x20`–`0x7E`. -/
def isPrintable (c : Char) : Bool :=
  decide (0x20 ≤ c.toNat) && decide (c.toNat ≤ 0x7E)

/-- The character loop of `readMethanSensor` in `esp.ino`.  Arguments:
remaining UART characters, the line currently being assembled
(`methanLine`, a `static` that persists across calls), the stored lines
(`methanRawLines`), and the stored-line counter (`methanRawCount`).  A
terminator flushes a nonempty line into the buffer when fewer than 7
lines are stored; printable characters extend the current line; other
characters are discarded.  When the characters run out, a nonempty
current line is also flushed (and cleared) if the buffer has room,
mirroring the end-of-buffer handling in the source. -/
def readMethanChars : List Char → List Char → List String → Nat →
    List String × Nat × List Char
  | [], line, acc, cnt =>
    if line.length > 0 ∧ cnt < 7 then (acc ++ [String.mk line], cnt + 1, [])
    else (acc, cnt, line)
  | c :: cs, line, acc, cnt =>
    if c = '\r' ∨ c = '\n' then
      if line.length > 0 then
        if cnt < 7 then readMethanChars cs [] (acc ++ [String.mk line]) (cnt + 1)
        else readMethanChars cs [] acc cnt
      else readMethanChars cs line acc cnt
    else if isPrintable c then readMethanChars cs (line ++ [c]) acc cnt
    else readMethanChars cs line acc cnt

/-- `readMethanSensor` from `esp.ino`: `methanRawCount` is reset to 0 at
the start of each cycle and the available UART characters are folded into
the line buffer.  `pending` is the content the `static` current-line
buffer carried over from the previous call.  Result:
(`methanRawLines`, `methanRawCount`, leftover `methanLine`). -/
def readMethanSensor (pending input : List Char) : List String × Nat × List Char :=
  readMethanChars input pending [] 0

/-- Reference splitter for stating properties of `readMethanSensor`:
the (unbounded) list of terminated lines in the character stream,
keeping only printable characters, plus the unterminated leftover. -/
def splitLines : List Char → List Char → List String × List Char
  | [], line => ([], line)
  | c :: cs, line =>
    if c = '\r' ∨ c = '\n' then
      let r := splitLines cs []
      if line.length > 0 then (String.mk line :: r.1, r.2) else r
    else if isPrintable c then splitLines cs (line ++ [c])
    else splitLines cs line

/-- All lines the firmware would flush for a character stream: the
terminated lines followed by a nonempty unterminated trailing line. -/
def fullLines (cs line : List Char) : List String :=
  (splitLines cs line).1 ++
    (if (splitLines cs line).2.length > 0 then [String.mk (splitLines cs line).2] else [])

/-- A character the firmware reacts to at all: a line terminator or a
printable character; every other character is silently discarded by
`readMethanSensor`. -/
def keepChar (c : Char) : Bool :=
  c == '\r' || c == '\n' || isPrintable c

/-- A value of the JSON payload assembled by `sendSensorData` in
`esp.ino`: a number or an array of strings. -/
inductive JPayload where
  | num : ℚ → JPayload
  | arr : List String → JPayload
deriving DecidableEq

/-- The firmware globals that `sendSensorData` serializes (numeric
sensor readings are modelled as rationals; their values play no role in
the payload-shape claims). -/
structure FirmwareState where
  phValue : ℚ
  voltage : ℚ
  temp1 : ℚ
  temp2 : ℚ
  bme_temperature : ℚ
  bme_humidity : ℚ
  bme_pressure : ℚ
  bme_gas_resistance : ℚ
  methanRawLines : List String
deriving DecidableEq

/-- The JSON document built by `sendSensorData` in `esp.ino`, as an
ordered key/value list: the eight numeric sensor fields followed by the
`methan_raw` array holding the buffered UART lines. -/
def sendSensorData_payload (s : FirmwareState) : List (String × JPayload) :=
  [("ph", .num s.phValue),
   ("ph_voltage", .num s.voltage),
   ("temp1", .num s.temp1),
   ("temp2", .num s.temp2),
   ("bme_temperature", .num s.bme_temperature),
   ("bme_humidity", .num s.bme_humidity),
   ("bme_pressure", .num s.bme_pressure),
   ("bme_gas_resistance", .num s.bme_gas_resistance),
   ("methan_raw", .arr s.methanRawLines)]

/-- A hexadecimal digit (either case), as the frame decoder accepts. -/
def isHexDigit (c : Char) : Bool :=
  (decide ('0' ≤ c) && decide (c ≤ '9')) ||
  (decide ('a' ≤ c) && decide (c ≤ 'f')) ||
  (decide ('A' ≤ c) && decide (c ≤ 'F'))

/-- An 8-character hexadecimal word, the shape the spec asserts for the
entries of the raw methane array. -/
def isHexWord8 (s : String) : Bool :=
  (s.length == 8) && s.data.all isHexDigit

end Firmware

section Backend

/-- Value of one hexadecimal digit character, if any. -/
def hexDigitVal? (c : Char) : Option Nat :=
  if '0' ≤ c ∧ c ≤ '9' then some (c.toNat - '0'.toNat)
  else if 'a' ≤ c ∧ c ≤ 'f' then some (c.toNat - 'a'.toNat + 10)
  else if 'A' ≤ c ∧ c ≤ 'F' then some (c.toNat - 'A'.toNat + 10)
  else none

/-- Modelled from the spec: each frame line "is parsed as an unsigned
32-bit hexadecimal integer" (the backend `main.py` holding the actual
parse call is not in the sources).  A nonempty all-hex string parses to
its value; anything else is a malformed word. -/
def parseHexWord? (s : String) : Option Nat :=
  if s.data.isEmpty then none
  else s.data.foldl
    (fun acc c => acc.bind (fun a => (hexDigitVal? c).map (fun d => a * 16 + d)))
    (some 0)

/-- Fixed INIR2 start marker, position 0 of the frame (README protocol
table). -/
def START_MARKER : Nat := 0x0000005B

/-- Fixed INIR2 end marker, position 6 of the frame (README protocol
table). -/
def END_MARKER : Nat := 0x0000005D

/-- Python's `(~crc) & 0xFFFFFFFF` on a nonnegative integer: the bitwise
complement of the low 32 bits, i.e. `0xFFFFFFFF - crc % 2^32`. -/
def compl32 (crc : Nat) : Nat := 0xFFFFFFFF - crc % 2 ^ 32

/-- Modelled from the spec: the frame decoder's soft error taxonomy
(`IncompleteFrame`, `MalformedWord(index)`, `FrameSyncError`); the
backend `main.py` is not in the sources. -/
inductive DecodeError where
  | IncompleteFrame : DecodeError
  | MalformedWord : Nat → DecodeError
  | FrameSyncError : DecodeError
deriving DecidableEq

/-- The decoded methane frame, following the spec's `MethaneFrame`
data model. -/
structure MethaneFrame where
  start_marker : Nat
  concentration_ppm : Nat
  fault_word : Nat
  temperature_raw : Nat
  crc : Nat
  crc_inverted : Nat
  end_marker : Nat
  faults : List String
  crc_valid : Bool
deriving DecidableEq

/-- The static fault table: an association from (subsystem index,
4-bit code) to a description.  The concrete `FAULT_TABLE` lives in the
absent backend `main.py`, so the development is parametric in it. -/
abbrev FaultTable : Type := List ((Nat × Nat) × String)

/-- Fault-table lookup with the generic fallback the spec requires so
that "no error code is ever silently swallowed". -/
def lookupFault (table : FaultTable) (i v : Nat) : String :=
  match List.lookup (i, v) table with
  | some d => d
  | none => "unknown fault code"

/-- The `i`-th 4-bit nibble of a word, subsystem 0 being the
least-significant nibble. -/
def nibble (word i : Nat) : Nat := (word >>> (4 * i)) % 16

/-- Modelled from the spec: `decode_faults` walks the 8 nibbles of the
32-bit fault word in ascending subsystem order, skipping the no-error
code `0xA` and appending the table description (or the generic fallback)
for every other nibble; an empty result becomes
`["No errors detected"]`.  The backend `main.py` is not in the
sources. -/
def decode_faults (table : FaultTable) (word : Nat) : List String :=
  let fs := (List.range 8).foldl
    (fun acc i =>
      if nibble word i = 0xA then acc else acc ++ [lookupFault table i (nibble word i)]) []
  if fs = [] then ["No errors detected"] else fs

/-- The contribution of subsystem `i` to the fault list: nothing for the
no-error nibble `0xA`, the table description (with the generic fallback)
otherwise. -/
def faultEntry (table : FaultTable) (word i : Nat) : Option String :=
  if nibble word i = 0xA then none else some (lookupFault table i (nibble word i))

/-- Modelled from the spec: the frame decoder.  Fewer than 7 lines is
an `IncompleteFrame`; each line parses as a 32-bit hex word with the
first failure reported as `MalformedWord(index)`; position 0/6 must be
the start/end markers; position 4 is the CRC and position 5 must be its
complement re-masked to 32 bits, a disagreement setting
`crc_valid = false` and appending a "CRC mismatch" fault while all
numeric words stay populated.  The backend `main.py` is not in the
sources. -/
def decode (table : FaultTable) (lines : List String) : Except DecodeError MethaneFrame :=
  if lines.length < 7 then .error .IncompleteFrame
  else
    match parseHexWord? (lines.getD 0 ""), parseHexWord? (lines.getD 1 ""),
        parseHexWord? (lines.getD 2 ""), parseHexWord? (lines.getD 3 ""),
        parseHexWord? (lines.getD 4 ""), parseHexWord? (lines.getD 5 ""),
        parseHexWord? (lines.getD 6 "") with
    | none, _, _, _, _, _, _ => .error (.MalformedWord 0)
    | _, none, _, _, _, _, _ => .error (.MalformedWord 1)
    | _, _, none, _, _, _, _ => .error (.MalformedWord 2)
    | _, _, _, none, _, _, _ => .error (.MalformedWord 3)
    | _, _, _, _, none, _, _ => .error (.MalformedWord 4)
    | _, _, _, _, _, none, _ => .error (.MalformedWord 5)
    | _, _, _, _, _, _, none => .error (.MalformedWord 6)
    | some w0, some w1, some w2, some w3, some w4, some w5, some w6 =>
      if w0 = START_MARKER ∧ w6 = END_MARKER then
        .ok { start_marker := w0, concentration_ppm := w1, fault_word := w2,
              temperature_raw := w3, crc := w4, crc_inverted := w5,
              end_marker := w6,
              faults := decode_faults table w2 ++
                (if w5 = compl32 w4 then [] else ["CRC mismatch"]),
              crc_valid := decide (w5 = compl32 w4) }
      else .error .FrameSyncError

/-- Modelled from the spec: `methane_percent = ppm / 10000`. -/
def methane_percent (f : MethaneFrame) : ℚ := (f.concentration_ppm : ℚ) / 10000

/-- Modelled from the spec: the raw temperature word is Kelvin times 10,
so `methane_temperature_c = raw / 10.0 - 273.15`. -/
def methane_temperature_c (f : MethaneFrame) : ℚ :=
  (f.temperature_raw : ℚ) / 10 - 27315 / 100

/-- Modelled from the spec: one ingestion cycle's raw input (the spec's
`RawTelemetry`; the wire name of the methane array is `methan_raw`). -/
structure RawTelemetry where
  ph : JVal
  ph_voltage : JVal
  temp1 : JVal
  temp2 : JVal
  bme_temperature : JVal
  bme_humidity : JVal
  bme_pressure : JVal
  bme_gas_resistance : JVal
  methane_raw : List String
deriving DecidableEq

/-- The per-channel persistence state of the two tank-temperature
channels (the spec's `TemperatureChannelState`, one per channel). -/
structure ValidatorState where
  last_valid1 : JVal
  last_valid2 : JVal
deriving DecidableEq

/-- Modelled from the spec: a fully processed measurement (the spec's
`ValidatedRecord`).  The timestamp, an external clock read, is omitted:
no claim concerns it. -/
structure ValidatedRecord where
  ph : JVal
  ph_voltage : JVal
  temp1 : JVal
  temp2 : JVal
  bme_temperature : JVal
  bme_humidity : JVal
  bme_pressure : JVal
  bme_gas_resistance : JVal
  methane_ppm : Option Nat
  methane_percent : Option ℚ
  methane_temperature_c : Option ℚ
  methane_faults : List String
  crc_valid : Option Bool
deriving DecidableEq

/-- Pass a finite number through, defaulting anything else (null,
non-finite, string) to `null`, as the validator's soft field default. -/
def coerceNum : JVal → JVal
  | .num q => .num q
  | _ => .null

/-- A finite number or `null` — the shape the spec's `ValidatedRecord`
invariant allows for every numeric field (never NaN downstream). -/
def isNumOrNull : JVal → Bool
  | .null => true
  | .num _ => true
  | _ => false

/-- A finite number. -/
def isNum : JVal → Bool
  | .num _ => true
  | _ => false

/-- Well-formedness of the persistence state: both channels hold a
finite number or `null`. -/
def stateWF (st : ValidatorState) : Bool :=
  isNumOrNull st.last_valid1 && isNumOrNull st.last_valid2

/-- Modelled from the spec: the fault string the validator records for
each frame decode error; the spec fixes "no methane data" for an
incomplete frame. -/
def errorFault : DecodeError → String
  | .IncompleteFrame => "no methane data"
  | .MalformedWord _ => "malformed methane frame word"
  | .FrameSyncError => "methane frame sync error"

/-- Modelled from the spec: the ingestion validator.  pH is calibrated
(and defaulted to `null` on type mismatch), `ph_voltage` and the
`bme_*` fields pass through with the `null` default, the two tank
temperatures go through the persistence store, and the methane lines go
through the frame decoder, decode errors degrading only the methane
portion.  It is total: every input yields a record.  The backend
`main.py` is not in the sources. -/
def validate (table : FaultTable) (st : ValidatorState) (raw : RawTelemetry) :
    ValidatedRecord × ValidatorState :=
  let t1 := get_persistent_temperature raw.temp1 st.last_valid1
  let t2 := get_persistent_temperature raw.temp2 st.last_valid2
  let m := decode table raw.methane_raw
  ({ ph := coerceNum (adjust_ph_value raw.ph)
     ph_voltage := coerceNum raw.ph_voltage
     temp1 := t1
     temp2 := t2
     bme_temperature := coerceNum raw.bme_temperature
     bme_humidity := coerceNum raw.bme_humidity
     bme_pressure := coerceNum raw.bme_pressure
     bme_gas_resistance := coerceNum raw.bme_gas_resistance
     methane_ppm := match m with | .ok f => some f.concentration_ppm | .error _ => none
     methane_percent := match m with | .ok f => some (methane_percent f) | .error _ => none
     methane_temperature_c :=
       match m with | .ok f => some (methane_temperature_c f) | .error _ => none
     methane_faults := match m with | .ok f => f.faults | .error e => [errorFault e]
     crc_valid := match m with | .ok f => some f.crc_valid | .error _ => none },
   { last_valid1 := t1, last_valid2 := t2 })

/-- Modelled from the spec: the upload scheduler's observable state —
the pending buffer, the batches handed to the external store (one entry
per flush attempt), and the records the store acknowledged. -/
structure SchedState (R : Type) where
  pending : List R
  attempts : List (List R)
  delivered : List R
deriving DecidableEq

/-- Ingestion appends one validated record to the pending buffer. -/
def appendRecord {R : Type} (s : SchedState R) (r : R) : SchedState R :=
  { s with pending := s.pending ++ [r] }

/-- Keep at most `cap` records, dropping the oldest beyond the cap. -/
def boundCap {R : Type} (cap : Nat) (l : List R) : List R :=
  l.drop (l.length - cap)

/-- Modelled from the spec: one scheduler tick.  The pending buffer is
swapped for an empty one (`during` are records appended while the write
is in flight) and the swapped-out batch is written; on success the batch
is discarded into `delivered`, on failure it is merged back to the front
of the new buffer, bounded by the cap with the oldest records dropped.
The backend `main.py` is not in the sources. -/
def schedTick {R : Type} (cap : Nat) (ok : Bool) (during : List R) (s : SchedState R) :
    SchedState R :=
  if ok then
    { pending := during, attempts := s.attempts ++ [s.pending],
      delivered := s.delivered ++ s.pending }
  else
    { pending := boundCap cap (s.pending ++ during),
      attempts := s.attempts ++ [s.pending],
      delivered := s.delivered }

end Backend

-- Basic lemmas about the firmware line reader.

theorem splitLines_nil (line : List Char) : splitLines [] line = ([], line) := rfl

theorem splitLines_term {c : Char} (h : c = '\r' ∨ c = '\n') (cs line : List Char) :
    splitLines (c :: cs) line =
      (if line.length > 0
        then (String.mk line :: (splitLines cs []).1, (splitLines cs []).2)
        else splitLines cs []) := by
  simp only [splitLines, if_pos h]

theorem splitLines_printable {c : Char} (h1 : ¬(c = '\r' ∨ c = '\n'))
    (h2 : isPrintable c = true) (cs line : List Char) :
    splitLines (c :: cs) line = splitLines cs (line ++ [c]) := by
  simp only [splitLines, if_neg h1, if_pos h2]

theorem splitLines_skip {c : Char} (h1 : ¬(c = '\r' ∨ c = '\n'))
    (h2 : ¬isPrintable c = true) (cs line : List Char) :
    splitLines (c :: cs) line = splitLines cs line := by
  simp only [splitLines, if_neg h1, if_neg h2]

/-- Characterization of the firmware line reader: starting with `acc`
already-stored lines (and the counter in sync with `acc`), it stores
exactly the next `7 - acc.length` flushable lines of the stream, and the
counter counts the stored lines. -/
theorem readMethanChars_spec (cs : List Char) : ∀ (line : List Char) (acc : List String),
    acc.length ≤ 7 →
    (readMethanChars cs line acc acc.length).1
        = acc ++ (fullLines cs line).take (7 - acc.length)
    ∧ (readMethanChars cs line acc acc.length).2.1
        = acc.length + min (fullLines cs line).length (7 - acc.length) := by
  induction cs with
  | nil =>
    intro line acc hacc
    by_cases hline : line.length > 0
    · by_cases hcnt : acc.length < 7
      · constructor
        · simp only [readMethanChars, if_pos (And.intro hline hcnt), fullLines,
            splitLines_nil, if_pos hline]
          rw [List.take_of_length_le (by simp; omega)]
          simp
        · simp only [readMethanChars, if_pos (And.intro hline hcnt), fullLines,
            splitLines_nil, if_pos hline]
          simp
          omega
      · have h7 : acc.length = 7 := by omega
        constructor
        · simp only [readMethanChars, fullLines, splitLines_nil, if_pos hline]
          rw [if_neg (by omega)]
          simp [h7]
        · simp only [readMethanChars, fullLines, splitLines_nil, if_pos hline]
          rw [if_neg (by omega)]
          simp [h7]
    · constructor
      · simp only [readMethanChars, fullLines, splitLines_nil, if_neg hline]
        rw [if_neg (by omega)]
        simp
      · simp only [readMethanChars, fullLines, splitLines_nil, if_neg hline]
        rw [if_neg (by omega)]
        simp
  | cons c cs ih =>
    intro line acc hacc
    by_cases hterm : c = '\r' ∨ c = '\n'
    · by_cases hline : line.length > 0
      · by_cases hcnt : acc.length < 7
        · have hstep : readMethanChars (c :: cs) line acc acc.length
              = readMethanChars cs [] (acc ++ [String.mk line]) (acc ++ [String.mk line]).length := by
            simp only [readMethanChars, if_pos hterm, if_pos hline, if_pos hcnt,
              List.length_append, List.length_singleton]
          have hlen' : (acc ++ [String.mk line]).length ≤ 7 := by simp; omega
          obtain ⟨ih1, ih2⟩ := ih [] (acc ++ [String.mk line]) hlen'
          have hfull : fullLines (c :: cs) line = String.mk line :: fullLines cs [] := by
            simp only [fullLines, splitLines_term hterm, if_pos hline]
            simp
          constructor
          · rw [hstep, ih1, hfull]
            have htake : (String.mk line :: fullLines cs []).take (7 - acc.length)
                = String.mk line :: (fullLines cs []).take (7 - (acc.length + 1)) := by
              have : 7 - acc.length = (7 - (acc.length + 1)) + 1 := by omega
              rw [this, List.take_succ_cons]
            rw [htake]
            simp
          · rw [hstep, ih2, hfull]
            simp only [List.length_append, List.length_singleton, List.length_cons,
              List.length_nil]
            omega
        · have h7 : acc.length = 7 := by omega
          have hstep : readMethanChars (c :: cs) line acc acc.length
              = readMethanChars cs [] acc acc.length := by
            simp only [readMethanChars, if_pos hterm, if_pos hline, if_neg hcnt]
          obtain ⟨ih1, ih2⟩ := ih [] acc hacc
          constructor
          · rw [hstep, ih1, h7]
            simp
          · rw [hstep, ih2, h7]
            simp
      · have hstep : readMethanChars (c :: cs) line acc acc.length
            = readMethanChars cs line acc acc.length := by
          simp only [readMethanChars, if_pos hterm, if_neg hline]
        have hfull : fullLines (c :: cs) line = fullLines cs [] := by
          simp only [fullLines, splitLines_term hterm, if_neg hline]
        have hlineNil : line = [] := by
          cases line with
          | nil => rfl
          | cons a l => simp at hline
        obtain ⟨ih1, ih2⟩ := ih line acc hacc
        constructor
        · rw [hstep, ih1, hfull, hlineNil]
        · rw [hstep, ih2, hfull, hlineNil]
    · by_cases hpr : isPrintable c = true
      · have hstep : readMethanChars (c :: cs) line acc acc.length
            = readMethanChars cs (line ++ [c]) acc acc.length := by
          simp only [readMethanChars, if_neg hterm, if_pos hpr]
        have hfull : fullLines (c :: cs) line = fullLines cs (line ++ [c]) := by
          simp only [fullLines, splitLines_printable hterm hpr]
        obtain ⟨ih1, ih2⟩ := ih (line ++ [c]) acc hacc
        exact ⟨by rw [hstep, ih1, hfull], by rw [hstep, ih2, hfull]⟩
      · have hstep : readMethanChars (c :: cs) line acc acc.length
            = readMethanChars cs line acc acc.length := by
          simp only [readMethanChars, if_neg hterm, if_neg hpr]
        have hfull : fullLines (c :: cs) line = fullLines cs line := by
          simp only [fullLines, splitLines_skip hterm hpr]
        obtain ⟨ih1, ih2⟩ := ih line acc hacc
        exact ⟨by rw [hstep, ih1, hfull], by rw [hstep, ih2, hfull]⟩

/-- Every stored line of the firmware reader consists of printable
characters, provided the carried-over partial line and the already
stored lines do. -/
theorem readMethanChars_printable (cs : List Char) :
    ∀ (line : List Char) (acc : List String) (cnt : Nat),
    line.all isPrintable = true →
    acc.all (fun l => l.data.all isPrintable) = true →
    (readMethanChars cs line acc cnt).1.all (fun l => l.data.all isPrintable) = true := by
  induction cs with
  | nil =>
    intro line acc cnt hl ha
    by_cases h : line.length > 0 ∧ cnt < 7
    · simp only [readMethanChars, if_pos h, List.all_append]
      simp only [List.all_cons, List.all_nil, Bool.and_true, ha, Bool.true_and]
      exact hl
    · simp only [readMethanChars, if_neg h]
      exact ha
  | cons c cs ih =>
    intro line acc cnt hl ha
    by_cases hterm : c = '\r' ∨ c = '\n'
    · by_cases hline : line.length > 0
      · by_cases hcnt : cnt < 7
        · simp only [readMethanChars, if_pos hterm, if_pos hline, if_pos hcnt]
          apply ih
          · simp
          · simp only [List.all_append, List.all_cons, List.all_nil, Bool.and_true, ha,
              Bool.true_and]
            exact hl
        · simp only [readMethanChars, if_pos hterm, if_pos hline, if_neg hcnt]
          apply ih
          · simp
          · exact ha
      · simp only [readMethanChars, if_pos hterm, if_neg hline]
        exact ih line acc cnt hl ha
    · by_cases hpr : isPrintable c = true
      · simp only [readMethanChars, if_neg hterm, if_pos hpr]
        apply ih
        · simp only [List.all_append, List.all_cons, List.all_nil, Bool.and_true, hl, hpr,
            Bool.true_and]
        · exact ha
      · simp only [readMethanChars, if_neg hterm, if_neg hpr]
        exact ih line acc cnt hl ha

/-- Characters that are neither line terminators nor printable have no
effect on the firmware reader: filtering them out of the input changes
nothing. -/
theorem readMethanChars_filter (cs : List Char) :
    ∀ (line : List Char) (acc : List String) (cnt : Nat),
    readMethanChars cs line acc cnt = readMethanChars (cs.filter keepChar) line acc cnt := by
  induction cs with
  | nil => intro line acc cnt; rfl
  | cons c cs ih =>
    intro line acc cnt
    by_cases hk : keepChar c = true
    · rw [List.filter_cons_of_pos hk]
      by_cases hterm : c = '\r' ∨ c = '\n'
      · by_cases hline : line.length > 0
        · by_cases hcnt : cnt < 7
          · simp only [readMethanChars, if_pos hterm, if_pos hline, if_pos hcnt]
            exact ih _ _ _
          · simp only [readMethanChars, if_pos hterm, if_pos hline, if_neg hcnt]
            exact ih _ _ _
        · simp only [readMethanChars, if_pos hterm, if_neg hline]
          exact ih _ _ _
      · by_cases hpr : isPrintable c = true
        · simp only [readMethanChars, if_neg hterm, if_pos hpr]
          exact ih _ _ _
        · simp only [readMethanChars, if_neg hterm, if_neg hpr]
          exact ih _ _ _
    · have hsplit : ¬(c = '\r' ∨ c = '\n') ∧ ¬isPrintable c = true := by
        simp only [keepChar, Bool.or_eq_true, beq_iff_eq] at hk
        push_neg at hk
        exact ⟨fun h => by rcases h with h | h <;> simp [h] at hk, hk.2⟩
      rw [List.filter_cons_of_neg (by simp [hk])]
      simp only [readMethanChars, if_neg hsplit.1, if_neg hsplit.2]
      exact ih _ _ _

/-- C10 (counterexample): `readMethanSensor` does not store only
complete (terminated) lines.  On the UART input `X`, `Y`, `Z` with no
line terminator, the firmware flushes the unterminated trailing line
into `methanRawLines`, although the cycle contained no complete line at
all (`splitLines` finds none). -/
theorem incomplete_line_stored_counterexample :
    (readMethanSensor [] ['X', 'Y', 'Z']).1 = ["XYZ"]
    ∧ (splitLines ['X', 'Y', 'Z'] []).1 = [] := by
  decide

/-- C10 (amended): after every call `methanRawCount` equals the number
of stored lines and is at most 7; the stored lines are exactly the first
7 flushable lines of the cycle — the terminated lines plus a nonempty
unterminated trailing line, assembled from the carried-over partial line
and the printable characters of the input; and characters that are
neither printable nor line terminators are silently discarded. -/
theorem methan_buffer_bounded (pending input : List Char) :
    (readMethanSensor pending input).2.1 = (readMethanSensor pending input).1.length
    ∧ (readMethanSensor pending input).2.1 ≤ 7
    ∧ (readMethanSensor pending input).1 = (fullLines input pending).take 7
    ∧ readMethanSensor pending input = readMethanSensor pending (input.filter keepChar) := by
  obtain ⟨h1, h2⟩ := readMethanChars_spec input pending [] (by simp)
  simp only [List.length_nil, List.nil_append, Nat.sub_zero, Nat.zero_add] at h1 h2
  have hsens : readMethanSensor pending input = readMethanChars input pending [] 0 := rfl
  refine ⟨?_, ?_, ?_, ?_⟩
  · rw [hsens, h1, h2, List.length_take]
    omega
  · rw [hsens, h2]
    omega
  · rw [hsens, h1]
  · rw [hsens, readMethanChars_filter]
    rfl

/-- C9 (counterexample): the telemetry document the firmware produces
has no field named `methane_raw` — the field is named `methan_raw` — and
its entries need not be 8-character hexadecimal words: the UART line
`XYZ` is stored and shipped as-is. -/
theorem methane_raw_misnamed_counterexample :
    (readMethanSensor [] ['X', 'Y', 'Z', '\n']).1 = ["XYZ"]
    ∧ (sendSensorData_payload ⟨0, 0, 0, 0, 0, 0, 0, 0, ["XYZ"]⟩).lookup ("methane_raw") = none
    ∧ (sendSensorData_payload ⟨0, 0, 0, 0, 0, 0, 0, 0, ["XYZ"]⟩).lookup ("methan_raw")
        = some (.arr ["XYZ"])
    ∧ isHexWord8 ("XYZ") = false := by
  decide

/-- C9 (amended): every telemetry document the firmware produces
contains a field named `methan_raw` (and none named `methane_raw`)
holding the ordered buffered UART lines: at most 7 strings, each made of
printable characters; the 8-hex-character shape is not enforced. -/
theorem payload_methan_raw_shape (s : FirmwareState) (pending input : List Char)
    (hp : pending.all isPrintable = true)
    (hl : s.methanRawLines = (readMethanSensor pending input).1) :
    (sendSensorData_payload s).lookup ("methan_raw") = some (.arr s.methanRawLines)
    ∧ (sendSensorData_payload s).lookup ("methane_raw") = none
    ∧ s.methanRawLines.length ≤ 7
    ∧ s.methanRawLines.all (fun l => l.data.all isPrintable) = true := by
  refine ⟨rfl, rfl, ?_, ?_⟩
  · obtain ⟨h1, -⟩ := readMethanChars_spec input pending [] (by simp)
    simp only [List.length_nil, List.nil_append, Nat.sub_zero] at h1
    rw [hl]
    show (readMethanChars input pending [] 0).1.length ≤ 7
    rw [h1, List.length_take]
    omega
  · rw [hl]
    exact readMethanChars_printable input pending [] 0 hp rfl

/-- C9 (witness for the amended theorem): a concrete cycle whose UART
input is the line `0000005b`. -/
theorem payload_methan_raw_shape_witness :
    (([] : List Char).all isPrintable = true
      ∧ (⟨0, 0, 0, 0, 0, 0, 0, 0, ["0000005b"]⟩ : FirmwareState).methanRawLines
          = (readMethanSensor []
              ['0', '0', '0', '0', '0', '0', '5', 'b', '\r']).1)
    ∧ (sendSensorData_payload ⟨0, 0, 0, 0, 0, 0, 0, 0, ["0000005b"]⟩).lookup ("methan_raw")
        = some (.arr ["0000005b"]) := by
  refine ⟨⟨by decide, by decide⟩, ?_⟩
  exact (payload_methan_raw_shape ⟨0, 0, 0, 0, 0, 0, 0, 0, ["0000005b"]⟩ []
    ['0', '0', '0', '0', '0', '0', '5', 'b', '\r'] (by decide) (by decide)).1

/-- C3: the temperature persistence store returns and records an
in-range finite sample; every other input (null, NaN, non-numeric, or
out of range) returns the current `last_valid` and leaves it unchanged,
so an invalid sample never affects acceptance of a later in-range
sample. -/
theorem temp_persistence_hold_last_good (last v : JVal) (q : ℚ)
    (hq : 15 ≤ q ∧ q ≤ 50) (hv : temp_valid v = false) :
    tempStoreApply last (.num q) = (.num q, .num q)
    ∧ tempStoreApply last v = (last, last)
    ∧ tempStoreApply (tempStoreApply last v).2 (.num q) = (.num q, .num q) := by
  have hvalid : temp_valid (.num q) = true := by
    simp only [temp_valid, Bool.and_eq_true, decide_eq_true_eq]
    exact hq
  refine ⟨?_, ?_, ?_⟩
  · simp [tempStoreApply, get_persistent_temperature, hvalid]
  · simp [tempStoreApply, get_persistent_temperature, hv]
  · simp [tempStoreApply, get_persistent_temperature, hv, hvalid]

/-- C3 (witness): channel starting empty, an out-of-range sample `99`
is rejected and held, and a later in-range sample `35` is accepted. -/
theorem temp_persistence_hold_last_good_witness :
    ((15 ≤ (35 : ℚ) ∧ (35 : ℚ) ≤ 50) ∧ temp_valid (JVal.num 99) = false)
    ∧ (tempStoreApply JVal.null (JVal.num 35) = (JVal.num 35, JVal.num 35)
      ∧ tempStoreApply JVal.null (JVal.num 99) = (JVal.null, JVal.null)
      ∧ tempStoreApply (tempStoreApply JVal.null (JVal.num 99)).2 (JVal.num 35)
          = (JVal.num 35, JVal.num 35)) :=
  ⟨⟨by decide, by decide⟩,
    temp_persistence_hold_last_good JVal.null (JVal.num 99) 35 (by decide) (by decide)⟩

/-- C4: pH calibration adds the fixed `+9` offset to every finite
number, passes `null` through, and applies no range clamping — the
instance `10 ↦ 19` lands outside `[0, 14]` and is returned as-is. -/
theorem ph_calibration_offset (q : ℚ) :
    adjust_ph_value (.num q) = .num (q + 9)
    ∧ adjust_ph_value .null = .null
    ∧ adjust_ph_value (.num 10) = .num 19 := by
  refine ⟨rfl, rfl, ?_⟩
  show JVal.num (10 + 9) = JVal.num 19
  norm_num

/-- The fault-accumulation loop of `decode_faults` collects exactly the
per-subsystem entries, in ascending order. -/
theorem faults_foldl_eq (table : FaultTable) (word : Nat) (l : List Nat) (acc : List String) :
    l.foldl
      (fun acc i =>
        if nibble word i = 0xA then acc else acc ++ [lookupFault table i (nibble word i)]) acc
    = acc ++ l.filterMap (faultEntry table word) := by
  induction l generalizing acc with
  | nil => simp
  | cons hd tl ih =>
    simp only [List.foldl_cons, List.filterMap_cons, faultEntry]
    by_cases h : nibble word hd = 0xA
    · simp [h, ih]
    · simp [h, ih]

/-- `decode_faults` in closed form: the collected entries, with the
empty case replaced by the no-errors message. -/
theorem decode_faults_eq_filterMap (table : FaultTable) (word : Nat) :
    decode_faults table word =
      if (List.range 8).filterMap (faultEntry table word) = []
      then ["No errors detected"]
      else (List.range 8).filterMap (faultEntry table word) := by
  show (if (List.range 8).foldl
      (fun acc i =>
        if nibble word i = 0xA then acc else acc ++ [lookupFault table i (nibble word i)]) [] = []
    then ["No errors detected"]
    else (List.range 8).foldl
      (fun acc i =>
        if nibble word i = 0xA then acc else acc ++ [lookupFault table i (nibble word i)]) []) = _
  rw [faults_foldl_eq]
  simp

/-- C2: `decode_faults` partitions the 32-bit word into 8 nibbles
(subsystem 0 least-significant), skips the no-error nibble `0xA`,
contributes the table description or the generic fallback for every
other nibble in ascending subsystem order, and maps the all-`0xA` word
`0xAAAAAAAA` to exactly `["No errors detected"]` — for every fault
table. -/
theorem decode_faults_characterization (table : FaultTable) (word : Nat) :
    decode_faults table word =
      (if (List.range 8).all (fun i => nibble word i == 0xA)
        then ["No errors detected"]
        else (List.range 8).filterMap (faultEntry table word))
    ∧ decode_faults table 0xAAAAAAAA = ["No errors detected"] := by
  have hiff : ∀ w : Nat,
      ((List.range 8).filterMap (faultEntry table w) = []) ↔
        ((List.range 8).all (fun i => nibble w i == 0xA) = true) := by
    intro w
    rw [List.filterMap_eq_nil_iff, List.all_eq_true]
    constructor
    · intro h i hi
      have hh := h i hi
      simp only [faultEntry] at hh
      by_cases hA : nibble w i = 0xA
      · simp [hA]
      · simp [hA] at hh
    · intro h i hi
      have hh := h i hi
      simp only [beq_iff_eq] at hh
      simp [faultEntry, hh]
  constructor
  · rw [decode_faults_eq_filterMap, if_congr (hiff word) rfl rfl]
  · rw [decode_faults_eq_filterMap, if_pos _]
    rw [hiff]
    decide

/-- C1: on a 7-word frame whose words parse and whose markers match,
the decoder checks `crc_inverted = (~crc) & 0xFFFFFFFF`; on disagreement
it still returns a full frame — `crc_valid` is `false`, a
"CRC mismatch" fault is appended to the fault list, and the
concentration (word 1) and temperature (word 3) stay populated: no
numeric data is dropped on CRC failure. -/
theorem crc_mismatch_flagged (table : FaultTable) (lines : List String)
    (w0 w1 w2 w3 w4 w5 w6 : Nat)
    (hlen : lines.length = 7)
    (h0 : parseHexWord? (lines.getD 0 "") = some w0)
    (h1 : parseHexWord? (lines.getD 1 "") = some w1)
    (h2 : parseHexWord? (lines.getD 2 "") = some w2)
    (h3 : parseHexWord? (lines.getD 3 "") = some w3)
    (h4 : parseHexWord? (lines.getD 4 "") = some w4)
    (h5 : parseHexWord? (lines.getD 5 "") = some w5)
    (h6 : parseHexWord? (lines.getD 6 "") = some w6)
    (hs : w0 = START_MARKER) (he : w6 = END_MARKER)
    (hcrc : w5 ≠ compl32 w4) :
    decode table lines =
      .ok { start_marker := w0, concentration_ppm := w1, fault_word := w2,
            temperature_raw := w3, crc := w4, crc_inverted := w5, end_marker := w6,
            faults := decode_faults table w2 ++ ["CRC mismatch"],
            crc_valid := false } := by
  unfold decode
  rw [if_neg (by omega)]
  simp only [h0, h1, h2, h3, h4, h5, h6]
  rw [if_pos ⟨hs, he⟩, if_neg hcrc]
  simp [hcrc]

/-- C1 (witness): the README's own example frame — its fifth word
`87654321` is not the complement of its CRC `12345678`, so the decoder
flags the mismatch while keeping ppm `0x1234` and temperature word
`0xBB8`. -/
theorem crc_mismatch_flagged_witness :
    ((["0000005b", "00001234", "0000aaaa", "00000bb8", "12345678", "87654321",
        "0000005d"] : List String).length = 7
      ∧ (0x87654321 : Nat) ≠ compl32 0x12345678)
    ∧ decode []
        ["0000005b", "00001234", "0000aaaa", "00000bb8", "12345678", "87654321", "0000005d"]
      = .ok { start_marker := 0x5B, concentration_ppm := 0x1234, fault_word := 0xAAAA,
              temperature_raw := 0xBB8, crc := 0x12345678, crc_inverted := 0x87654321,
              end_marker := 0x5D,
              faults := decode_faults [] 0xAAAA ++ ["CRC mismatch"],
              crc_valid := false } :=
  ⟨⟨by decide, by decide⟩,
    crc_mismatch_flagged []
      ["0000005b", "00001234", "0000aaaa", "00000bb8", "12345678", "87654321", "0000005d"]
      0x5B 0x1234 0xAAAA 0xBB8 0x12345678 0x87654321 0x5D
      (by decide) (by decide) (by decide) (by decide) (by decide) (by decide) (by decide)
      (by decide) rfl rfl (by decide)⟩

/-- C5: in every successful decode, `concentration_ppm` is word 1
unscaled and `temperature_raw` is word 3, and the derived quantities are
`methane_percent = ppm / 10000` and
`methane_temperature_c = raw / 10 - 273.15`. -/
theorem frame_numeric_scaling (table : FaultTable) (lines : List String) (f : MethaneFrame)
    (h : decode table lines = .ok f) :
    parseHexWord? (lines.getD 1 "") = some f.concentration_ppm
    ∧ parseHexWord? (lines.getD 3 "") = some f.temperature_raw
    ∧ methane_percent f = (f.concentration_ppm : ℚ) / 10000
    ∧ methane_temperature_c f = (f.temperature_raw : ℚ) / 10 - 27315 / 100 := by
  unfold decode at h
  split at h
  · simp at h
  · split at h
    · simp at h
    · simp at h
    · simp at h
    · simp at h
    · simp at h
    · simp at h
    · simp at h
    · split at h
      · rw [Except.ok.injEq] at h
        subst h
        refine ⟨?_, ?_, rfl, rfl⟩
        · assumption
        · assumption
      · simp at h

/-- C5 (witness): a valid frame with concentration `1234` ppm and
temperature word `2985` (298.5 K): the decoder reports the raw words and
the derived `0.1234` percent and `25.35` °C follow the fixed scalings. -/
theorem frame_numeric_scaling_witness :
    decode []
        ["0000005b", "000004d2", "aaaaaaaa", "00000ba9", "00000010", "ffffffef", "0000005d"]
      = .ok { start_marker := 0x5B, concentration_ppm := 1234, fault_word := 0xAAAAAAAA,
              temperature_raw := 2985, crc := 0x10, crc_inverted := 0xFFFFFFEF,
              end_marker := 0x5D, faults := ["No errors detected"], crc_valid := true }
    ∧ (parseHexWord?
        ((["0000005b", "000004d2", "aaaaaaaa", "00000ba9", "00000010", "ffffffef",
          "0000005d"] : List String).getD 1 "")
      = some (MethaneFrame.concentration_ppm
          { start_marker := 0x5B, concentration_ppm := 1234, fault_word := 0xAAAAAAAA,
            temperature_raw := 2985, crc := 0x10, crc_inverted := 0xFFFFFFEF,
            end_marker := 0x5D, faults := ["No errors detected"], crc_valid := true })
      ∧ parseHexWord?
        ((["0000005b", "000004d2", "aaaaaaaa", "00000ba9", "00000010", "ffffffef",
          "0000005d"] : List String).getD 3 "")
      = some (MethaneFrame.temperature_raw
          { start_marker := 0x5B, concentration_ppm := 1234, fault_word := 0xAAAAAAAA,
            temperature_raw := 2985, crc := 0x10, crc_inverted := 0xFFFFFFEF,
            end_marker := 0x5D, faults := ["No errors detected"], crc_valid := true })
      ∧ methane_percent
          { start_marker := 0x5B, concentration_ppm := 1234, fault_word := 0xAAAAAAAA,
            temperature_raw := 2985, crc := 0x10, crc_inverted := 0xFFFFFFEF,
            end_marker := 0x5D, faults := ["No errors detected"], crc_valid := true }
        = ((1234 : ℚ)) / 10000
      ∧ methane_temperature_c
          { start_marker := 0x5B, concentration_ppm := 1234, fault_word := 0xAAAAAAAA,
            temperature_raw := 2985, crc := 0x10, crc_inverted := 0xFFFFFFEF,
            end_marker := 0x5D, faults := ["No errors detected"], crc_valid := true }
        = ((2985 : ℚ)) / 10 - 27315 / 100) :=
  ⟨rfl,
    frame_numeric_scaling []
      ["0000005b", "000004d2", "aaaaaaaa", "00000ba9", "00000010", "ffffffef", "0000005d"]
      { start_marker := 0x5B, concentration_ppm := 1234, fault_word := 0xAAAAAAAA,
        temperature_raw := 2985, crc := 0x10, crc_inverted := 0xFFFFFFEF,
        end_marker := 0x5D, faults := ["No errors detected"], crc_valid := true }
      rfl⟩

/-- C6: with fewer than 7 methane lines the validator degrades softly:
every methane field of the produced record is `none`, the fault list is
exactly `["no methane data"]`, and all other fields — and the updated
persistence state — are identical to what any other methane input would
have produced: the record is still accepted and populated from the
other sensors. -/
theorem incomplete_frame_soft_failure (table : FaultTable) (st : ValidatorState)
    (raw : RawTelemetry) (mr : List String)
    (hlen : raw.methane_raw.length < 7) :
    (validate table st raw).1.methane_ppm = none
    ∧ (validate table st raw).1.methane_percent = none
    ∧ (validate table st raw).1.methane_temperature_c = none
    ∧ (validate table st raw).1.crc_valid = none
    ∧ (validate table st raw).1.methane_faults = ["no methane data"]
    ∧ (validate table st raw).1.ph = (validate table st { raw with methane_raw := mr }).1.ph
    ∧ (validate table st raw).1.ph_voltage
        = (validate table st { raw with methane_raw := mr }).1.ph_voltage
    ∧ (validate table st raw).1.temp1
        = (validate table st { raw with methane_raw := mr }).1.temp1
    ∧ (validate table st raw).1.temp2
        = (validate table st { raw with methane_raw := mr }).1.temp2
    ∧ (validate table st raw).1.bme_temperature
        = (validate table st { raw with methane_raw := mr }).1.bme_temperature
    ∧ (validate table st raw).1.bme_humidity
        = (validate table st { raw with methane_raw := mr }).1.bme_humidity
    ∧ (validate table st raw).1.bme_pressure
        = (validate table st { raw with methane_raw := mr }).1.bme_pressure
    ∧ (validate table st raw).1.bme_gas_resistance
        = (validate table st { raw with methane_raw := mr }).1.bme_gas_resistance
    ∧ (validate table st raw).2 = (validate table st { raw with methane_raw := mr }).2 := by
  have hdec : decode table raw.methane_raw = .error .IncompleteFrame := by
    unfold decode
    rw [if_pos hlen]
  simp [validate, hdec, errorFault]

/-- C6 (witness): a cycle with a single methane line but healthy other
sensors still yields a record: methane unknown, fault recorded, the
rest of the record populated. -/
theorem incomplete_frame_soft_failure_witness :
    (RawTelemetry.methane_raw
        ⟨.num 5, .num 2, .num 35, .num 34, .num 22, .num 65, .num 1013, .num 50000,
          ["0000005b"]⟩ : List String).length < 7
    ∧ (validate [] ⟨.null, .null⟩
        ⟨.num 5, .num 2, .num 35, .num 34, .num 22, .num 65, .num 1013, .num 50000,
          ["0000005b"]⟩).1.methane_ppm = none
    ∧ (validate [] ⟨.null, .null⟩
        ⟨.num 5, .num 2, .num 35, .num 34, .num 22, .num 65, .num 1013, .num 50000,
          ["0000005b"]⟩).1.methane_faults = ["no methane data"] :=
  ⟨by decide,
    (incomplete_frame_soft_failure [] ⟨.null, .null⟩
      ⟨.num 5, .num 2, .num 35, .num 34, .num 22, .num 65, .num 1013, .num 50000,
        ["0000005b"]⟩ [] (by decide)).1,
    (incomplete_frame_soft_failure [] ⟨.null, .null⟩
      ⟨.num 5, .num 2, .num 35, .num 34, .num 22, .num 65, .num 1013, .num 50000,
        ["0000005b"]⟩ [] (by decide)).2.2.2.2.1⟩

/-- Folding appends over the scheduler state only extends the pending
buffer, in arrival order. -/
theorem foldl_appendRecord {R : Type} (rs : List R) (s : SchedState R) :
    rs.foldl appendRecord s =
      { pending := s.pending ++ rs, attempts := s.attempts, delivered := s.delivered } := by
  induction rs generalizing s with
  | nil => simp
  | cons r rs ih => simp [appendRecord, ih]

/-- C7: after `N` records are appended between two ticks, the next tick
makes exactly one flush attempt covering all `N` records in order; a
failed flush retains all `N` for the next tick (none lost under the
cap), and an eventually successful flush delivers each exactly once
(none duplicated). -/
theorem scheduler_flush_retains_batch {R : Type} (cap : Nat) (rs : List R)
    (s0 s1 : SchedState R) (h0 : s0.pending = [])
    (hs1 : s1 = rs.foldl appendRecord s0) (hcap : rs.length ≤ cap) :
    (schedTick cap true [] s1).attempts = s0.attempts ++ [rs]
    ∧ (schedTick cap false [] s1).attempts = s0.attempts ++ [rs]
    ∧ (schedTick cap false [] s1).pending = rs
    ∧ (schedTick cap true [] s1).pending = []
    ∧ (schedTick cap true [] s1).delivered = s0.delivered ++ rs
    ∧ (schedTick cap true [] (schedTick cap false [] s1)).delivered = s0.delivered ++ rs
    ∧ (schedTick cap true [] (schedTick cap false [] s1)).pending = [] := by
  subst hs1
  have hbound : boundCap cap rs = rs := by
    simp [boundCap, Nat.sub_eq_zero_of_le hcap]
  simp [schedTick, foldl_appendRecord, h0, hbound]

/-- C7 (witness): three records, a failing tick, then a succeeding
tick: the failed flush retains `[1, 2, 3]`, the successful one delivers
exactly `[1, 2, 3]` and empties the buffer. -/
theorem scheduler_flush_retains_batch_witness :
    ((⟨[], [], []⟩ : SchedState Nat).pending = []
      ∧ (⟨[1, 2, 3], [], []⟩ : SchedState Nat) = [1, 2, 3].foldl appendRecord ⟨[], [], []⟩
      ∧ ([1, 2, 3] : List Nat).length ≤ 5)
    ∧ (schedTick 5 false [] (⟨[1, 2, 3], [], []⟩ : SchedState Nat)).pending = [1, 2, 3]
    ∧ (schedTick 5 true []
        (schedTick 5 false [] (⟨[1, 2, 3], [], []⟩ : SchedState Nat))).delivered
      = (⟨[], [], []⟩ : SchedState Nat).delivered ++ [1, 2, 3]
    ∧ (schedTick 5 true []
        (schedTick 5 false [] (⟨[1, 2, 3], [], []⟩ : SchedState Nat))).pending = [] :=
  ⟨⟨rfl, by decide, by decide⟩,
    (scheduler_flush_retains_batch 5 [1, 2, 3] ⟨[], [], []⟩ ⟨[1, 2, 3], [], []⟩
      rfl (by decide) (by decide)).2.2.1,
    (scheduler_flush_retains_batch 5 [1, 2, 3] ⟨[], [], []⟩ ⟨[1, 2, 3], [], []⟩
      rfl (by decide) (by decide)).2.2.2.2.2.1,
    (scheduler_flush_retains_batch 5 [1, 2, 3] ⟨[], [], []⟩ ⟨[1, 2, 3], [], []⟩
      rfl (by decide) (by decide)).2.2.2.2.2.2⟩

/-- Passing any value through the soft default yields a finite number
or `null`. -/
theorem isNumOrNull_coerceNum (v : JVal) : isNumOrNull (coerceNum v) = true := by
  cases v <;> rfl

/-- The persistence store preserves the finite-or-null shape of the
stored value. -/
theorem isNumOrNull_persist (v lv : JVal) (hlv : isNumOrNull lv = true) :
    isNumOrNull (get_persistent_temperature v lv) = true := by
  unfold get_persistent_temperature
  by_cases hv : temp_valid v = true
  · rw [if_pos hv]
    cases v with
    | num q => rfl
    | null => simp [temp_valid] at hv
    | nan => simp [temp_valid] at hv
    | str s => simp [temp_valid] at hv
  · rw [if_neg hv]
    exact hlv

/-- A non-number is defaulted to `null` by the soft default. -/
theorem coerceNum_default (v : JVal) (hv : isNum v = false) :
    coerceNum v = .null := by
  cases v with
  | num q => simp [isNum] at hv
  | null => rfl
  | nan => rfl
  | str s => rfl

/-- A non-number is defaulted to `null` by pH calibration followed by
the soft default. -/
theorem coerce_ph_default (v : JVal) (hv : isNum v = false) :
    coerceNum (adjust_ph_value v) = .null := by
  cases v with
  | num q => simp [isNum] at hv
  | null => rfl
  | nan => rfl
  | str s => rfl

/-- C8: the validator is total — it is a function producing a
`ValidatedRecord` for every input — and defaults every field
independently: all numeric fields of the record are finite numbers or
`null` (never NaN), the persistence state stays well-formed, every
non-numeric pass-through field becomes `null`, and an invalid
temperature sample falls back to the channel's stored value. -/
theorem validate_total_and_defaults (table : FaultTable) (st : ValidatorState)
    (raw : RawTelemetry) (h : stateWF st = true) :
    isNumOrNull (validate table st raw).1.ph = true
    ∧ isNumOrNull (validate table st raw).1.ph_voltage = true
    ∧ isNumOrNull (validate table st raw).1.temp1 = true
    ∧ isNumOrNull (validate table st raw).1.temp2 = true
    ∧ isNumOrNull (validate table st raw).1.bme_temperature = true
    ∧ isNumOrNull (validate table st raw).1.bme_humidity = true
    ∧ isNumOrNull (validate table st raw).1.bme_pressure = true
    ∧ isNumOrNull (validate table st raw).1.bme_gas_resistance = true
    ∧ stateWF (validate table st raw).2 = true
    ∧ (isNum raw.ph = false → (validate table st raw).1.ph = .null)
    ∧ (isNum raw.ph_voltage = false → (validate table st raw).1.ph_voltage = .null)
    ∧ (isNum raw.bme_temperature = false → (validate table st raw).1.bme_temperature = .null)
    ∧ (isNum raw.bme_humidity = false → (validate table st raw).1.bme_humidity = .null)
    ∧ (isNum raw.bme_pressure = false → (validate table st raw).1.bme_pressure = .null)
    ∧ (isNum raw.bme_gas_resistance = false →
        (validate table st raw).1.bme_gas_resistance = .null)
    ∧ (temp_valid raw.temp1 = false → (validate table st raw).1.temp1 = st.last_valid1)
    ∧ (temp_valid raw.temp2 = false → (validate table st raw).1.temp2 = st.last_valid2) := by
  have hwf : isNumOrNull st.last_valid1 = true ∧ isNumOrNull st.last_valid2 = true := by
    simpa [stateWF, Bool.and_eq_true] using h
  refine ⟨isNumOrNull_coerceNum _, isNumOrNull_coerceNum _,
    isNumOrNull_persist _ _ hwf.1, isNumOrNull_persist _ _ hwf.2,
    isNumOrNull_coerceNum _, isNumOrNull_coerceNum _, isNumOrNull_coerceNum _,
    isNumOrNull_coerceNum _, ?_,
    fun hv => coerce_ph_default _ hv,
    fun hv => coerceNum_default _ hv,
    fun hv => coerceNum_default _ hv,
    fun hv => coerceNum_default _ hv,
    fun hv => coerceNum_default _ hv,
    fun hv => coerceNum_default _ hv,
    ?_, ?_⟩
  · show (isNumOrNull (get_persistent_temperature raw.temp1 st.last_valid1)
        && isNumOrNull (get_persistent_temperature raw.temp2 st.last_valid2)) = true
    rw [isNumOrNull_persist _ _ hwf.1, isNumOrNull_persist _ _ hwf.2]
    rfl
  · intro hv
    show get_persistent_temperature raw.temp1 st.last_valid1 = st.last_valid1
    simp [get_persistent_temperature, hv]
  · intro hv
    show get_persistent_temperature raw.temp2 st.last_valid2 = st.last_valid2
    simp [get_persistent_temperature, hv]

/-- C8 (witness): a thoroughly malformed cycle — non-numeric pH,
non-finite and missing fields, out-of-range temperature, empty methane
array — still yields a record with every numeric field finite or
`null`, with the non-numeric pH defaulted to `null`. -/
theorem validate_total_and_defaults_witness :
    stateWF ⟨.null, .null⟩ = true
    ∧ isNumOrNull (validate [] ⟨.null, .null⟩
        ⟨.nan, .null, .num 99, .nan, .null, .nan, .null, .nan, []⟩).1.ph = true
    ∧ (validate [] ⟨.null, .null⟩
        ⟨.nan, .null, .num 99, .nan, .null, .nan, .null, .nan, []⟩).1.ph = .null :=
  ⟨by decide,
    (validate_total_and_defaults [] ⟨.null, .null⟩
      ⟨.nan, .null, .num 99, .nan, .null, .nan, .null, .nan, []⟩ (by decide)).1,
    (validate_total_and_defaults [] ⟨.null, .null⟩
      ⟨.nan, .null, .num 99, .nan, .null, .nan, .null, .nan, []⟩
      (by decide)).2.2.2.2.2.2.2.2.2.1 (by decide)⟩
